import Mathlib

/-!
Verification of the badtouch attempt scheduler and scripting runtime.

Shallow embedding of the relevant parts of `src/main.rs`, `src/http.rs`,
`src/runtime.rs` and `src/db/mysql.rs`.  Rust machine integers are modelled
as `Nat` with explicit wrap-around (`% 2^32`) where overflow matters; Rust
`f64` Lua numbers are modelled as `ℚ` (the claims only exercise exactly
representable values); fallible Rust code (`Result`) is modelled with
`Except`; a Rust panic is modelled by `Option` returning `none`; a Rust
`String` is modelled by its list of characters or, where the code works on
raw bytes, by a `List Nat` of byte values.
-/

namespace Badtouch

/-! ## Value bridge (hlua `AnyLuaValue`)

A `LuaString` is a Rust `String`; the runtime only ever looks at its UTF-8
bytes (`String::into_bytes`), so it is carried here directly as its list of
byte values.  `LuaNumber` is a Lua `f64`, modelled as `ℚ`. -/

inductive AnyLuaValue where
  | LuaNil
  | LuaBoolean (b : Bool)
  | LuaNumber (n : ℚ)
  | LuaString (bytes : List Nat)
  | LuaAnyString (bytes : List Nat)
  | LuaArray (xs : List (AnyLuaValue × AnyLuaValue))
  | LuaOther

/-- Models the Rust test `num % 1.0 == 0.0` on a finite double: true exactly
when the number is an integer. -/
def luaNumIsInt (n : ℚ) : Bool := n.den == 1

/-- One element of the `LuaArray` branch of `byte_array` (src/runtime.rs
lines 41-47): a pair whose value is an integral `LuaNumber` in `[0, 255]`
becomes that byte (`num as u8`); any other `LuaNumber` is the error
`number is out of range: ...`; a non-number is `unexpected type: ...`.
The error strings keep the static part of the Rust `format!` message. -/
def byteOfPair (p : AnyLuaValue × AnyLuaValue) : Except String Nat :=
  match p.2 with
  | .LuaNumber num =>
    if num ≤ 255 ∧ 0 ≤ num ∧ luaNumIsInt num = true then .ok num.num.toNat
    else .error "number is out of range"
  | _ => .error "unexpected type"

/-- Models `.collect::<Result<_>>()` over the mapped iterator: the first
error aborts the collection. -/
def collectBytes : List (AnyLuaValue × AnyLuaValue) → Except String (List Nat)
  | [] => .ok []
  | p :: rest =>
    match byteOfPair p with
    | .error e => .error e
    | .ok b =>
      match collectBytes rest with
      | .error e => .error e
      | .ok bs => .ok (b :: bs)

/-- `byte_array` (src/runtime.rs lines 35-52): the bytes-like coercion used
by every builtin that accepts byte input. -/
def byte_array : AnyLuaValue → Except String (List Nat)
  | .LuaAnyString bytes => .ok bytes
  | .LuaString bytes => .ok bytes
  | .LuaArray bytes => collectBytes bytes
  | _ => .error "invalid type"

/-! ## `rand` (src/runtime.rs lines 452-457)

`(rng.next_u32() + min) % max` with `u32` arithmetic: the addition wraps
modulo `2^32` and the final `%` panics when `max = 0` (remainder by zero),
modelled by `none`.  `u` stands for the value drawn by `rng.next_u32()`. -/

def u32Modulus : Nat := 4294967296

def rand (mn mx u : Nat) : Option Nat :=
  if mx = 0 then none else some ((u + mn) % u32Modulus % mx)

/-- Number of draws `u ∈ [0, 2^32)` that make `rand mn mx` return `some v`:
the distribution of the result over a uniform `next_u32`. -/
def randCount (mn mx v : Nat) : Nat :=
  ((Finset.range u32Modulus).filter (fun u => rand mn mx u = some v)).card

/-! ## base64 (src/runtime.rs lines 59-73)

`base64::encode` / `base64::decode` with the crate STANDARD configuration:
the usual alphabet, chunks of three bytes to four sextet characters, with
trailing `=` padding; decoding accepts only canonical input. -/

def b64Chars : List Char :=
  "ABCDEFGHIJKLMNOPQRSTUVWXYZabcdefghijklmnopqrstuvwxyz0123456789+/".toList

def b64Char (n : Nat) : Char := b64Chars.getD n 'A'

def b64Index (c : Char) : Option Nat := b64Chars.findIdx? (fun x => x == c)

def b64Encode : List Nat → List Char
  | [] => []
  | [a] => [b64Char (a / 4), b64Char (a % 4 * 16), '=', '=']
  | [a, b] => [b64Char (a / 4), b64Char (a % 4 * 16 + b / 16), b64Char (b % 16 * 4), '=']
  | a :: b :: c :: rest =>
    b64Char (a / 4) :: b64Char (a % 4 * 16 + b / 16) ::
      b64Char (b % 16 * 4 + c / 64) :: b64Char (c % 64) :: b64Encode rest

def b64Decode : List Char → Except String (List Nat)
  | [] => .ok []
  | c1 :: c2 :: c3 :: c4 :: rest =>
    match b64Index c1, b64Index c2 with
    | some i1, some i2 =>
      if c3 = '=' then
        if c4 = '=' ∧ rest = [] then .ok [i1 * 4 + i2 / 16]
        else .error "invalid padding"
      else
        match b64Index c3 with
        | some i3 =>
          if c4 = '=' then
            if rest = [] then .ok [i1 * 4 + i2 / 16, i2 % 16 * 16 + i3 / 4]
            else .error "invalid padding"
          else
            match b64Index c4 with
            | some i4 =>
              match b64Decode rest with
              | .ok bs =>
                .ok ((i1 * 4 + i2 / 16) :: (i2 % 16 * 16 + i3 / 4) :: (i3 % 4 * 64 + i4) :: bs)
              | .error e => .error e
            | none => .error "invalid byte"
        | none => .error "invalid byte"
    | _, _ => .error "invalid byte"
  | _ => .error "invalid length"

/-- `base64_encode` builtin (src/runtime.rs lines 67-73): coerce the value
with `byte_array`, then encode.  The `state.set_error` side effect on the
error path is not part of the returned value and is not modelled. -/
def base64_encode (v : AnyLuaValue) : Except String (List Char) :=
  (byte_array v).map b64Encode

/-- `base64_decode` builtin (src/runtime.rs lines 59-65): decode the string
and wrap the bytes with `lua_bytes` (a `LuaAnyString`). -/
def base64_decode (s : List Char) : Except String AnyLuaValue :=
  (b64Decode s).map .LuaAnyString

/-! ## HTTP requests (src/http.rs) -/

/-- `serde_json::Value`, carried through `RequestOptions` into the request
body unchanged. -/
inductive JsonValue where
  | null
  | bool (b : Bool)
  | num (q : ℚ)
  | str (s : String)
  | arr (xs : List JsonValue)
  | obj (xs : List (String × JsonValue))

/-- A cookie jar (src/http.rs line 213): `HashMap<String, String>`,
modelled as an association list with at most one entry per key; the Rust
`String` keys and values are carried as character lists because the
cookie parser builds them character by character. -/
abbrev CookieJar := List (List Char × List Char)

/-- `RequestOptions` (src/http.rs lines 36-45). -/
structure RequestOptions where
  query : Option (List (String × String)) := none
  headers : Option (List (String × String)) := none
  basic_auth : Option (String × String) := none
  user_agent : Option String := none
  json : Option JsonValue := none
  form : Option JsonValue := none
  body : Option String := none

/-- `Body` (src/http.rs lines 231-236). -/
inductive Body where
  | Raw (s : String)
  | Form (j : JsonValue)
  | Json (j : JsonValue)

/-- The `user_agent` field of the runtime config (`config.runtime.user_agent`). -/
structure Config where
  user_agent : Option String

/-- `HttpSession` (src/http.rs lines 20-24). -/
structure HttpSession where
  id : String
  cookies : CookieJar

/-- `HttpRequest` (src/http.rs lines 55-67). -/
structure HttpRequest where
  session : String
  cookies : CookieJar
  method : String
  url : String
  query : Option (List (String × String))
  headers : Option (List (String × String))
  basic_auth : Option (String × String)
  user_agent : Option String
  body : Option Body

/-- `HttpRequest::new` (src/http.rs lines 70-100): build the record with
`body = None`, then assign `Json`, then `Form`, then `Raw` whenever the
corresponding option is present — a later assignment overwrites an
earlier one. -/
def HttpRequest.new (config : Config) (session : HttpSession) (method url : String)
    (options : RequestOptions) : HttpRequest :=
  let request : HttpRequest :=
    { session := session.id
      cookies := session.cookies
      method := method
      url := url
      query := options.query
      headers := options.headers
      basic_auth := options.basic_auth
      user_agent := options.user_agent <|> config.user_agent
      body := none }
  let request := match options.json with
    | some json => { request with body := some (.Json json) }
    | none => request
  let request := match options.form with
    | some form => { request with body := some (.Form form) }
    | none => request
  let request := match options.body with
    | some text => { request with body := some (.Raw text) }
    | none => request
  request

/-! ## Set-Cookie processing (src/http.rs lines 171-192 and 215-221) -/

/-- The character loop of `register_cookies_on_state`: scan the raw header
value (the code iterates its bytes as chars); a first `=` switches from key
to value, a `;` stops the scan, every other character is appended to the
current part. -/
def parseCookieLoop : List Char → Bool → List Char → List Char → List Char × List Char
  | [], _, key, value => (key, value)
  | c :: rest, inKey, key, value =>
    if c = '=' ∧ inKey then parseCookieLoop rest false key value
    else if c = ';' then (key, value)
    else if inKey then parseCookieLoop rest inKey (key ++ [c]) value
    else parseCookieLoop rest inKey key (value ++ [c])

/-- Parse one raw `Set-Cookie` header value into a `(name, value)` pair. -/
def parseCookie (cookie : List Char) : List Char × List Char :=
  parseCookieLoop cookie true [] []

/-- The outer loop of `register_cookies_on_state`: one pair per raw
`Set-Cookie` header value. -/
def register_cookies (headers : List (List Char)) : List (List Char × List Char) :=
  headers.map parseCookie

/-- `HashMap::insert`: replace any previous entry for the key. -/
def jarInsert (jar : CookieJar) (key value : List Char) : CookieJar :=
  jar.filter (fun p => p.1 ≠ key) ++ [(key, value)]

/-- `CookieJar::register_in_jar` (src/http.rs lines 216-220). -/
def CookieJar.register_in_jar (jar : CookieJar) (cookies : List (List Char × List Char)) :
    CookieJar :=
  cookies.foldl (fun j kv => jarInsert j kv.1 kv.2) jar

/-- `HashMap` lookup on the jar. -/
def jarGet (jar : CookieJar) (key : List Char) : Option (List Char) :=
  (jar.find? (fun p => p.1 = key)).map (fun p => p.2)

/-! ## `http_basic_auth` (src/runtime.rs lines 212-227) -/

/-- An HTTP response as the builtin observes it: a status code and raw
headers.  Header names are stored lowercased, matching the
case-insensitive `Headers::get_raw` lookup. -/
structure HttpResponse where
  status : Nat
  headers : List (String × String)

def hasHeader (response : HttpResponse) (nm : String) : Bool :=
  response.headers.any (fun p => p.1 == nm)

/-- The verdict `http_basic_auth` computes from a response (src/runtime.rs
lines 221-225): true iff the response carries no `WWW-Authenticate` header
and its status is not `401 Unauthorized`. -/
def http_basic_auth (response : HttpResponse) : Bool :=
  !hasHeader response "www-authenticate" && !(response.status == 401)

/-! ## The driver loop (src/main.rs lines 135-195)

`scheduler.rs` is not among the sources; the pieces of it the driver
touches are modelled from the spec:
`Attempt` carries `user`, `password` (String or ByteString), a script
descriptor and a retry `ttl` (spec section 3), and `Scheduler::run`
enqueues an attempt into the backlog (spec section 4.1).  `Msg` carries
either a key event or an attempt completion `Result<bool, Error>`. -/

inductive Password where
  | str (s : String)
  | bytes (bs : List Nat)

structure Attempt where
  user : String
  password : Password
  script : String
  ttl : Nat

inductive Key where
  | H | P | R | Plus | Minus

inductive Msg where
  | key (k : Key)
  | attempt (a : Attempt) (result : Except String Bool)

/-- The driver-side counters and effects of src/main.rs lines 135-195:
`valid`/`retries`/`expired` are the local counters, `progress` is the
progress-bar position (`pb.inc()` advances it by one; `pb.tick()` and
`pb.writeln` leave it unchanged), `backlog` is the scheduler queue fed by
`pool.run`, and `report` collects the `(script, user, password)` lines
written for valid credentials. -/
structure DriverState where
  valid : Nat
  retries : Nat
  expired : Nat
  progress : Nat
  backlog : List Attempt
  report : List (String × String × Password)

/-- One iteration of the driver match (src/main.rs lines 139-194).  Key
events only touch the progress bar and the pool controls, none of which
are part of this state. -/
def driverStep (s : DriverState) (m : Msg) : DriverState :=
  match m with
  | .key _ => s
  | .attempt a result =>
    match result with
    | .ok isValid =>
      if isValid then
        { s with report := s.report ++ [(a.script, a.user, a.password)]
                 valid := s.valid + 1
                 progress := s.progress + 1 }
      else
        { s with progress := s.progress + 1 }
    | .error _ =>
      if a.ttl > 0 then
        { s with retries := s.retries + 1
                 backlog := s.backlog ++ [{ a with ttl := a.ttl - 1 }] }
      else
        { s with expired := s.expired + 1
                 progress := s.progress + 1 }

/-- The closed loop for an attempt whose script always fails transiently:
a worker pops the next attempt from the backlog and posts it back as an
`Err` completion, which the driver then processes.  Returns the final
state and the number of `Msg::Attempt(Err)` events the driver observed;
`fuel` bounds the iteration. -/
def runFailing : Nat → DriverState → DriverState × Nat
  | 0, s => (s, 0)
  | fuel + 1, s =>
    match s.backlog with
    | [] => (s, 0)
    | a :: rest =>
      let s1 := driverStep { s with backlog := rest } (.attempt a (.error "transient failure"))
      let p := runFailing fuel s1
      (p.1, p.2 + 1)

/-- Spec scenario: a single always-failing attempt submitted with ttl
overridden to 2 (spec section 8, scenario 2). -/
def retryDemoAttempt : Attempt :=
  { user := "u", password := .str "p", script := "x", ttl := 2 }

def retryDemoState : DriverState :=
  { valid := 0, retries := 0, expired := 0, progress := 0
    backlog := [retryDemoAttempt], report := [] }

/-! ## MySQL cell conversion (src/db/mysql.rs lines 61-72) -/

inductive MysqlValue where
  | NULL
  | Bytes (bytes : List Nat)
  | Int (i : Int)
  | UInt (u : Nat)
  | Float (f : ℚ)
  | Date (year month day hour minute second micro : Nat)
  | Time (negative days hours minutes seconds micro : Nat)

def utf8Cont (b : Nat) : Bool := 0x80 ≤ b && b ≤ 0xBF

/-- UTF-8 validity of a byte sequence, as `String::from_utf8` checks it:
ASCII, two-byte `C2..DF`, three-byte `E0/E1..EC/ED/EE..EF` with their
continuation ranges (no overlong forms, no surrogates), four-byte
`F0/F1..F3/F4` (up to U+10FFFF). -/
def utf8Valid : List Nat → Bool
  | [] => true
  | b :: rest =>
    if b ≤ 0x7F then utf8Valid rest
    else
      match rest with
      | [] => false
      | b2 :: rest2 =>
        if 0xC2 ≤ b && b ≤ 0xDF then utf8Cont b2 && utf8Valid rest2
        else
          match rest2 with
          | [] => false
          | b3 :: rest3 =>
            if b == 0xE0 then (0xA0 ≤ b2 && b2 ≤ 0xBF) && utf8Cont b3 && utf8Valid rest3
            else if 0xE1 ≤ b && b ≤ 0xEC then utf8Cont b2 && utf8Cont b3 && utf8Valid rest3
            else if b == 0xED then (0x80 ≤ b2 && b2 ≤ 0x9F) && utf8Cont b3 && utf8Valid rest3
            else if 0xEE ≤ b && b ≤ 0xEF then utf8Cont b2 && utf8Cont b3 && utf8Valid rest3
            else
              match rest3 with
              | [] => false
              | b4 :: rest4 =>
                if b == 0xF0 then
                  (0x90 ≤ b2 && b2 ≤ 0xBF) && utf8Cont b3 && utf8Cont b4 && utf8Valid rest4
                else if 0xF1 ≤ b && b ≤ 0xF3 then
                  utf8Cont b2 && utf8Cont b3 && utf8Cont b4 && utf8Valid rest4
                else if b == 0xF4 then
                  (0x80 ≤ b2 && b2 ≤ 0x8F) && utf8Cont b3 && utf8Cont b4 && utf8Valid rest4
                else false

/-- `mysql_value_to_lua` (src/db/mysql.rs lines 61-72).  `none` models a
panic: `String::from_utf8(bytes).unwrap()` on non-UTF-8 bytes, and the
`unimplemented` arms for `Date` and `Time`.  The numeric payload of an
`i64`/`u64` cast to `f64` is carried exactly (the cast itself may round in
Rust; only reachability matters here). -/
def mysql_value_to_lua : MysqlValue → Option AnyLuaValue
  | .NULL => some .LuaNil
  | .Bytes bytes =>
    if utf8Valid bytes then some (.LuaString bytes) else none
  | .Int i => some (.LuaNumber (i : ℚ))
  | .UInt u => some (.LuaNumber (u : ℚ))
  | .Float f => some (.LuaNumber f)
  | .Date _ _ _ _ _ _ _ => none
  | .Time _ _ _ _ _ _ => none

/-- The per-row loop of `mysql_query` (src/runtime.rs lines 397-402):
every cell of the row is converted with `mysql_value_to_lua` into a
`LuaMap` keyed by column name; a panic anywhere is a panic of the whole
call. -/
def mysqlConvertRow : List (String × MysqlValue) → Option (List (String × AnyLuaValue))
  | [] => some []
  | cell :: rest =>
    match mysql_value_to_lua cell.2 with
    | none => none
    | some x =>
      match mysqlConvertRow rest with
      | none => none
      | some xs => some ((cell.1, x) :: xs)

/-- The result loop of `mysql_query` (src/runtime.rs lines 391-405) over
the selected rows. -/
def mysqlConvertRows : List (List (String × MysqlValue)) →
    Option (List (List (String × AnyLuaValue)))
  | [] => some []
  | row :: rest =>
    match mysqlConvertRow row with
    | none => none
    | some r =>
      match mysqlConvertRows rest with
      | none => none
      | some rs => some (r :: rs)

/-! # Theorems -/

theorem card_range_filter_mod3 (N r : Nat) (hr : r < 3) :
    ((Finset.range N).filter (fun u => u % 3 = r)).card
      = N / 3 + (if r < N % 3 then 1 else 0) := by
  induction N with
  | zero => simp
  | succ n ih =>
    rw [Finset.range_succ, Finset.filter_insert]
    by_cases h : n % 3 = r
    · rw [if_pos h, Finset.card_insert_of_not_mem
        (fun hmem => Finset.not_mem_range_self (Finset.mem_of_mem_filter n hmem)), ih]
      clear ih
      subst h
      rw [if_neg (lt_irrefl (n % 3))]
      rcases Nat.lt_or_ge (n % 3) ((n + 1) % 3) with h1 | h1
      · rw [if_pos h1]; omega
      · rw [if_neg (Nat.not_lt.mpr h1)]; omega
    · rw [if_neg h, ih]
      clear ih
      have hne : n % 3 ≠ r := h
      rcases Nat.lt_or_ge r (n % 3) with h1 | h1
      · rw [if_pos h1]
        rcases Nat.lt_or_ge r ((n + 1) % 3) with h2 | h2
        · rw [if_pos h2]; omega
        · rw [if_neg (Nat.not_lt.mpr h2)]; omega
      · rw [if_neg (Nat.not_lt.mpr h1)]
        rcases Nat.lt_or_ge r ((n + 1) % 3) with h2 | h2
        · rw [if_pos h2]; omega
        · rw [if_neg (Nat.not_lt.mpr h2)]; omega

theorem randCount_zero_three (v : Nat) (hv : v < 3) :
    randCount 0 3 v = 4294967296 / 3 + (if v < 4294967296 % 3 then 1 else 0) := by
  unfold randCount
  rw [Finset.filter_congr (q := fun u => u % 3 = v)]
  · exact card_range_filter_mod3 u32Modulus v hv
  · intro x hx
    have hlt : x < u32Modulus := Finset.mem_range.mp hx
    simp [rand, Nat.mod_eq_of_lt hlt]

/-- C7: `rand(min, max)` returns `(u + min) mod max` for the drawn
`u ∈ [0, 2^32)`, the addition wrapping modulo `2^32`; the result is always
strictly below `max`, and the scheme is biased: for `min = 0`, `max = 3`
the values 0 and 2 are hit by a different number of draws. -/
theorem rand_formula_bias (mn mx u : Nat) (_hu : u < u32Modulus) (hmx : 0 < mx) :
    rand mn mx u = some ((u + mn) % u32Modulus % mx) ∧
    (∀ v, rand mn mx u = some v → v < mx) ∧
    randCount 0 3 0 ≠ randCount 0 3 2 := by
  refine ⟨by simp [rand, hmx.ne'], ?_, ?_⟩
  · intro v hv
    simp only [rand, if_neg hmx.ne', Option.some.injEq] at hv
    exact hv ▸ Nat.mod_lt _ hmx
  · rw [randCount_zero_three 0 (by norm_num), randCount_zero_three 2 (by norm_num)]
    decide

theorem rand_formula_bias_witness :
    rand 5 7 2 = some ((2 + 5) % u32Modulus % 7) ∧
    (∀ v, rand 5 7 2 = some v → v < 7) ∧
    randCount 0 3 0 ≠ randCount 0 3 2 :=
  rand_formula_bias 5 7 2 (by decide) (by decide)

/-- C9: the final `% max` of `rand` has no guard: for `max > 0` the call
returns a value strictly below `max`, while `rand(min, 0)` hits the
remainder-by-zero panic (modelled by `none`). -/
theorem rand_mod_guard (mn u mx : Nat) (hmx : 0 < mx) :
    (∃ v, rand mn mx u = some v ∧ v < mx) ∧ rand mn 0 u = none := by
  refine ⟨⟨(u + mn) % u32Modulus % mx, by simp [rand, hmx.ne'], Nat.mod_lt _ hmx⟩, by simp [rand]⟩

theorem rand_mod_guard_witness :
    (∃ v, rand 5 3 7 = some v ∧ v < 3) ∧ rand 5 0 7 = none :=
  rand_mod_guard 5 7 3 (by decide)

theorem byteOfPair_num (k : AnyLuaValue) (n : Nat) (hn : n ≤ 255) :
    byteOfPair (k, .LuaNumber (n : ℚ)) = .ok n := by
  show (if ((n : ℚ) ≤ 255 ∧ 0 ≤ (n : ℚ) ∧ luaNumIsInt (n : ℚ) = true) then
      Except.ok (((n : ℚ)).num.toNat) else Except.error "number is out of range") = Except.ok n
  rw [if_pos ⟨by exact_mod_cast hn, by positivity, by simp [luaNumIsInt]⟩]
  simp

theorem collectBytes_ok (xs : List (AnyLuaValue × AnyLuaValue)) (ns : List Nat)
    (h : List.Forall₂
      (fun p (n : Nat) => p.2 = AnyLuaValue.LuaNumber (n : ℚ) ∧ n ≤ 255) xs ns) :
    collectBytes xs = .ok ns := by
  induction h with
  | nil => rfl
  | @cons p n xs2 ns2 hpn hrest ih =>
    obtain ⟨hp, hn⟩ := hpn
    have hb : byteOfPair p = .ok n := by
      rcases p with ⟨k, v⟩
      simp only at hp
      rw [hp]
      exact byteOfPair_num k n hn
    simp [collectBytes, hb, ih]

/-- C5 (amended): the bytes-like coercion maps a `String` to its UTF-8
bytes, a `ByteString` to its raw bytes, and an `Array` of pairs whose
values are integral Numbers in `[0, 255]` to those bytes in pair order;
the error message "invalid type" appears exactly for the remaining
top-level shapes (Nil, Boolean, Number, Other), while a bad array element
yields "number is out of range" (a Number out of range or non-integral)
or "unexpected type" (a non-Number). -/
theorem byte_array_coercion :
    (∀ bytes : List Nat, byte_array (.LuaString bytes) = .ok bytes) ∧
    (∀ bytes : List Nat, byte_array (.LuaAnyString bytes) = .ok bytes) ∧
    (∀ (xs : List (AnyLuaValue × AnyLuaValue)) (ns : List Nat),
      List.Forall₂ (fun p (n : Nat) => p.2 = AnyLuaValue.LuaNumber (n : ℚ) ∧ n ≤ 255) xs ns →
      byte_array (.LuaArray xs) = .ok ns) ∧
    byte_array .LuaNil = .error "invalid type" ∧
    (∀ b, byte_array (.LuaBoolean b) = .error "invalid type") ∧
    (∀ n, byte_array (.LuaNumber n) = .error "invalid type") ∧
    byte_array .LuaOther = .error "invalid type" :=
  ⟨fun _ => rfl, fun _ => rfl, fun xs ns h => collectBytes_ok xs ns h,
   rfl, fun _ => rfl, fun _ => rfl, rfl⟩

theorem byte_array_coercion_witness :
    byte_array (.LuaArray [(.LuaNumber 1, .LuaNumber ((72 : Nat) : ℚ)),
                           (.LuaNumber 2, .LuaNumber ((255 : Nat) : ℚ))]) = .ok [72, 255] :=
  byte_array_coercion.2.2.1 _ _
    (.cons ⟨rfl, by norm_num⟩ (.cons ⟨rfl, by norm_num⟩ .nil))

theorem byte_array_coercion_cex :
    byte_array (.LuaArray [(.LuaNumber 1, .LuaNumber 256)]) = .error "number is out of range" ∧
    byte_array (.LuaArray [(.LuaNumber 1, .LuaBoolean true)]) = .error "unexpected type" ∧
    ("number is out of range" : String) ≠ "invalid type" ∧
    ("unexpected type" : String) ≠ "invalid type" := by
  refine ⟨?_, rfl, by decide, by decide⟩
  simp [byte_array, collectBytes, byteOfPair]
  norm_num

theorem b64Index_b64Char : ∀ i, i < 64 → b64Index (b64Char i) = some i := by decide

theorem b64Char_ne_pad : ∀ i, i < 64 → b64Char i ≠ '=' := by decide

theorem b64_decode_encode :
    ∀ bs : List Nat, (∀ x ∈ bs, x < 256) → b64Decode (b64Encode bs) = Except.ok bs
  | [], _ => rfl
  | [a], h => by
    have ha : a < 256 := h a (by simp)
    have h1 := b64Index_b64Char (a / 4) (by omega)
    have h2 := b64Index_b64Char (a % 4 * 16) (by omega)
    simp only [b64Encode, b64Decode, h1, h2]
    simp
    omega
  | [a, b], h => by
    have ha : a < 256 := h a (by simp)
    have hb : b < 256 := h b (by simp)
    have h1 := b64Index_b64Char (a / 4) (by omega)
    have h2 := b64Index_b64Char (a % 4 * 16 + b / 16) (by omega)
    have h3 := b64Index_b64Char (b % 16 * 4) (by omega)
    have hne3 := b64Char_ne_pad (b % 16 * 4) (by omega)
    simp only [b64Encode, b64Decode, h1, h2, h3, hne3]
    simp
    omega
  | a :: b :: c :: rest, h => by
    have ha : a < 256 := h a (by simp)
    have hb : b < 256 := h b (by simp)
    have hc : c < 256 := h c (by simp)
    have h1 := b64Index_b64Char (a / 4) (by omega)
    have h2 := b64Index_b64Char (a % 4 * 16 + b / 16) (by omega)
    have h3 := b64Index_b64Char (b % 16 * 4 + c / 64) (by omega)
    have h4 := b64Index_b64Char (c % 64) (by omega)
    have hne3 := b64Char_ne_pad (b % 16 * 4 + c / 64) (by omega)
    have hne4 := b64Char_ne_pad (c % 64) (by omega)
    have ih := b64_decode_encode rest (fun x hx => h x (by simp [hx]))
    simp only [b64Encode, b64Decode, h1, h2, h3, h4, hne3, hne4, ih]
    simp
    omega

/-- C6: for any ByteString `b`, `base64_decode(base64_encode(b))` succeeds
and returns a ByteString equal to `b`. -/
theorem base64_roundtrip (bs : List Nat) (h : ∀ x ∈ bs, x < 256) :
    base64_encode (.LuaAnyString bs) = .ok (b64Encode bs) ∧
    base64_decode (b64Encode bs) = .ok (.LuaAnyString bs) := by
  refine ⟨rfl, ?_⟩
  unfold base64_decode
  rw [b64_decode_encode bs h]
  rfl

theorem base64_roundtrip_witness :
    base64_encode (.LuaAnyString [0, 255, 254, 7]) = .ok (b64Encode [0, 255, 254, 7]) ∧
    base64_decode (b64Encode [0, 255, 254, 7]) = .ok (.LuaAnyString [0, 255, 254, 7]) :=
  base64_roundtrip [0, 255, 254, 7] (by decide)

/-- C2 (amended): the `body` field of the record built by `http_request`
is decided by last-assignment-wins in the order json, then form, then raw
body: a raw `body` option wins over `form`, which wins over `json`; in
particular, when both `json` and `form` are set (and `body` is not), the
resulting request body is `Form(form-value)`. -/
theorem http_request_body_precedence (config : Config) (session : HttpSession)
    (method url : String) (options : RequestOptions) :
    (HttpRequest.new config session method url options).body =
      match options.body with
      | some text => some (.Raw text)
      | none =>
        match options.form with
        | some form => some (.Form form)
        | none => options.json.map Body.Json := by
  rcases options with ⟨q, hd, ba, ua, j, f, b⟩
  cases j <;> cases f <;> cases b <;> rfl

theorem http_request_body_precedence_cex :
    (HttpRequest.new ⟨none⟩ ⟨"sess", []⟩ "GET" "http://x"
      { json := some .null, form := some (.bool true) }).body = some (.Form (.bool true)) ∧
    (HttpRequest.new ⟨none⟩ ⟨"sess", []⟩ "GET" "http://x"
      { json := some .null, form := some (.bool true) }).body ≠ some (.Json .null) := by
  refine ⟨rfl, fun hcontra => ?_⟩
  have h2 : some (Body.Form (JsonValue.bool true)) = some (Body.Json JsonValue.null) := hcontra
  injection h2 with h3
  injection h3

/-- C3 (amended): `http_basic_auth` reports `Ok(true)` iff the response
carries no `WWW-Authenticate` header and its status is not 401; the status
being 2xx/3xx is not required (a 404 or 500 without the header also yields
true). -/
theorem http_basic_auth_criterion (response : HttpResponse) :
    http_basic_auth response = true ↔
      (hasHeader response "www-authenticate" = false ∧ response.status ≠ 401) := by
  simp [http_basic_auth]

theorem http_basic_auth_cex :
    http_basic_auth { status := 404, headers := [] } = true ∧
    hasHeader { status := 404, headers := [] } "www-authenticate" = false ∧
    ¬(200 ≤ 404 ∧ 404 ≤ 399) := by
  refine ⟨rfl, rfl, by omega⟩

theorem parseCookieLoop_value (s : List Char) (key value : List Char) :
    parseCookieLoop s false key value = (key, value ++ s.takeWhile (fun c => c ≠ ';')) := by
  induction s generalizing value with
  | nil => simp [parseCookieLoop]
  | cons c rest ih =>
    by_cases hc : c = ';'
    · subst hc
      simp [parseCookieLoop, List.takeWhile_cons]
    · simp [parseCookieLoop, hc, List.takeWhile_cons, ih]

theorem parseCookieLoop_key (s : List Char) (key : List Char) :
    parseCookieLoop s true key [] =
      (key ++ (s.takeWhile (fun c => c ≠ ';')).takeWhile (fun c => c ≠ '='),
       ((s.takeWhile (fun c => c ≠ ';')).dropWhile (fun c => c ≠ '=')).drop 1) := by
  induction s generalizing key with
  | nil => simp [parseCookieLoop]
  | cons c rest ih =>
    by_cases he : c = '='
    · subst he
      simp [parseCookieLoop, parseCookieLoop_value, List.takeWhile_cons, List.dropWhile_cons]
    · by_cases hs : c = ';'
      · subst hs
        simp [parseCookieLoop, List.takeWhile_cons]
      · simp [parseCookieLoop, he, hs, List.takeWhile_cons, List.dropWhile_cons, ih]

theorem jarGet_jarInsert (jar : CookieJar) (k v : List Char) :
    jarGet (jarInsert jar k v) k = some v := by
  induction jar with
  | nil => simp [jarGet, jarInsert]
  | cons p rest ih =>
    by_cases hp : p.1 = k
    · simp only [jarInsert, List.filter_cons, hp]
      simp only [jarInsert] at ih
      simp at ih ⊢
      exact ih
    · simp only [jarInsert, List.filter_cons, hp, jarGet, List.find?_cons] at ih ⊢
      simp [hp] at ih ⊢

/-- C4 (amended): each raw Set-Cookie header value is truncated at its
first `;` (discarding the rest of the header — including any `=` — so a
`;` that precedes the first `=` ends the name and leaves the value empty),
and the truncated prefix is split on its first `=` into name and value
(later `=` characters kept in the value); the resulting pairs are merged
into the owning session jar, so a response containing
`Set-Cookie: a=1; Path=/` leaves the jar mapping `a` to `1`. -/
theorem set_cookie_parse :
    (∀ s : List Char,
      parseCookie s =
        ((s.takeWhile (fun c => c ≠ ';')).takeWhile (fun c => c ≠ '='),
         ((s.takeWhile (fun c => c ≠ ';')).dropWhile (fun c => c ≠ '=')).drop 1)) ∧
    (∀ jar : CookieJar,
      jarGet (CookieJar.register_in_jar jar (register_cookies ["a=1; Path=/".toList]))
        "a".toList = some "1".toList) := by
  constructor
  · intro s
    exact parseCookieLoop_key s []
  · intro jar
    have h1 : register_cookies ["a=1; Path=/".toList] = [("a".toList, "1".toList)] := by decide
    rw [CookieJar.register_in_jar, h1]
    exact jarGet_jarInsert jar _ _

theorem set_cookie_parse_cex :
    parseCookie "a;b=1".toList = ("a".toList, []) ∧
    parseCookie "a;b=1".toList ≠
      ("a;b=1".toList.takeWhile (fun c => c ≠ '='),
       (("a;b=1".toList.dropWhile (fun c => c ≠ '=')).drop 1).takeWhile (fun c => c ≠ ';')) := by
  decide

/-- C8: an `Ok(false)` completion only advances the progress bar: no
report line, no re-enqueue, and the valid / retries / expired counters are
untouched. -/
theorem driver_ok_false_frame (s : DriverState) (a : Attempt) :
    driverStep s (.attempt a (.ok false)) = { s with progress := s.progress + 1 } := rfl

theorem driverStep_error_retry (s : DriverState) (a : Attempt) (msg : String)
    (h : 0 < a.ttl) :
    driverStep s (.attempt a (.error msg)) =
      { s with retries := s.retries + 1,
               backlog := s.backlog ++ [{ a with ttl := a.ttl - 1 }] } := by
  simp [driverStep, h]

theorem driverStep_error_expire (s : DriverState) (a : Attempt) (msg : String)
    (h : a.ttl = 0) :
    driverStep s (.attempt a (.error msg)) =
      { s with expired := s.expired + 1, progress := s.progress + 1 } := by
  simp [driverStep, h]

theorem runFailing_spec (T : Nat) :
    ∀ (a : Attempt) (s : DriverState), s.backlog = [a] → a.ttl = T →
      (runFailing (T + 1) s).2 = T + 1 ∧
      (runFailing (T + 1) s).1.expired = s.expired + 1 ∧
      (runFailing (T + 1) s).1.retries = s.retries + T ∧
      (runFailing (T + 1) s).1.backlog = [] := by
  induction T with
  | zero =>
    intro a s hb ht
    simp [runFailing, hb, driverStep_error_expire _ a _ ht, runFailing]
  | succ n ih =>
    intro a s hb ht
    have hstep : runFailing (n + 1 + 1) s =
        ((runFailing (n + 1) (driverStep { s with backlog := [] }
            (.attempt a (.error "transient failure")))).1,
         (runFailing (n + 1) (driverStep { s with backlog := [] }
            (.attempt a (.error "transient failure")))).2 + 1) := by
      conv_lhs => rw [runFailing]
      rw [hb]
    rw [hstep, driverStep_error_retry _ a _ (by omega)]
    obtain ⟨e1, e2, e3, e4⟩ :=
      ih { a with ttl := a.ttl - 1 }
        { s with retries := s.retries + 1, backlog := [] ++ [{ a with ttl := a.ttl - 1 }] }
        (by simp) (by simp [ht])
    refine ⟨by rw [e1], by rw [e2], by rw [e3]; simp; omega, e4⟩

/-- C1 (amended): an attempt submitted with initial ttl `T` whose script
always fails transiently produces exactly `T + 1` `Msg::Attempt(Err)`
events (the initial run plus `T` retries), after which the expired counter
has been incremented exactly once and the retries counter `T` times; each
`Err` event with remaining ttl above zero decrements the ttl and
re-enqueues the attempt via `run`, and only the final `Err` event
(ttl = 0) increments expired. -/
theorem retry_ttl_events (T : Nat) (a : Attempt) (s : DriverState)
    (hb : s.backlog = [a]) (ht : a.ttl = T) :
    (runFailing (T + 1) s).2 = T + 1 ∧
    (runFailing (T + 1) s).1.expired = s.expired + 1 ∧
    (runFailing (T + 1) s).1.retries = s.retries + T ∧
    (runFailing (T + 1) s).1.backlog = [] ∧
    (∀ (s2 : DriverState) (b : Attempt) (msg : String), 0 < b.ttl →
      driverStep s2 (.attempt b (.error msg)) =
        { s2 with retries := s2.retries + 1,
                  backlog := s2.backlog ++ [{ b with ttl := b.ttl - 1 }] }) ∧
    (∀ (s2 : DriverState) (b : Attempt) (msg : String), b.ttl = 0 →
      driverStep s2 (.attempt b (.error msg)) =
        { s2 with expired := s2.expired + 1, progress := s2.progress + 1 }) := by
  obtain ⟨e1, e2, e3, e4⟩ := runFailing_spec T a s hb ht
  exact ⟨e1, e2, e3, e4,
    fun s2 b msg h => driverStep_error_retry s2 b msg h,
    fun s2 b msg h => driverStep_error_expire s2 b msg h⟩

theorem retry_ttl_events_witness :
    (runFailing (2 + 1) retryDemoState).2 = 2 + 1 ∧
    (runFailing (2 + 1) retryDemoState).1.expired = retryDemoState.expired + 1 ∧
    (runFailing (2 + 1) retryDemoState).1.retries = retryDemoState.retries + 2 ∧
    (runFailing (2 + 1) retryDemoState).1.backlog = [] ∧
    (∀ (s2 : DriverState) (b : Attempt) (msg : String), 0 < b.ttl →
      driverStep s2 (.attempt b (.error msg)) =
        { s2 with retries := s2.retries + 1,
                  backlog := s2.backlog ++ [{ b with ttl := b.ttl - 1 }] }) ∧
    (∀ (s2 : DriverState) (b : Attempt) (msg : String), b.ttl = 0 →
      driverStep s2 (.attempt b (.error msg)) =
        { s2 with expired := s2.expired + 1, progress := s2.progress + 1 }) :=
  retry_ttl_events 2 retryDemoAttempt retryDemoState rfl rfl

theorem retry_ttl_events_cex :
    (runFailing 10 retryDemoState).2 = 3 ∧
    (runFailing 10 retryDemoState).2 ≠ 2 ∧
    (runFailing 10 retryDemoState).1.expired = 1 := by
  refine ⟨rfl, by decide, rfl⟩

theorem mysqlConvertRow_isSome (row : List (String × MysqlValue)) :
    (mysqlConvertRow row).isSome = true ↔
      ∀ cell ∈ row, (mysql_value_to_lua cell.2).isSome = true := by
  induction row with
  | nil => simp [mysqlConvertRow]
  | cons cell rest ih =>
    simp only [mysqlConvertRow]
    rcases hcell : mysql_value_to_lua cell.2 with _ | x
    · simp [hcell]
    · rcases hrest : mysqlConvertRow rest with _ | xs
      · rw [hrest] at ih
        simp only [Option.isSome_none, Bool.false_eq_true, false_iff] at ih
        push_neg at ih
        obtain ⟨bad, hbad, hbad2⟩ := ih
        simp only [Option.isSome_none, Bool.false_eq_true, false_iff]
        push_neg
        exact ⟨bad, List.mem_cons_of_mem cell hbad, hbad2⟩
      · rw [hrest] at ih
        simp only [Option.isSome_some, true_iff] at ih
        simp only [Option.isSome_some, true_iff]
        intro c2 hc2
        rcases List.mem_cons.mp hc2 with h2 | h2
        · rw [h2]
          simp [hcell]
        · exact ih c2 h2

theorem mysqlConvertRows_isSome (rows : List (List (String × MysqlValue))) :
    (mysqlConvertRows rows).isSome = true ↔
      ∀ row ∈ rows, ∀ cell ∈ row, (mysql_value_to_lua cell.2).isSome = true := by
  induction rows with
  | nil => simp [mysqlConvertRows]
  | cons row rest ih =>
    simp only [mysqlConvertRows]
    rcases hrow : mysqlConvertRow row with _ | r
    · have := (mysqlConvertRow_isSome row).not
      rw [hrow] at this
      simp only [Option.isSome_none, Bool.false_eq_true, not_false_eq_true, true_iff] at this
      push_neg at this
      obtain ⟨bad, hbad, hbad2⟩ := this
      simp only [Option.isSome_none, Bool.false_eq_true, false_iff]
      push_neg
      exact ⟨row, List.mem_cons_self row rest, bad, hbad, hbad2⟩
    · have hr : ∀ cell ∈ row, (mysql_value_to_lua cell.2).isSome = true := by
        rw [← mysqlConvertRow_isSome, hrow]
        rfl
      rcases hrest : mysqlConvertRows rest with _ | rs
      · rw [hrest] at ih
        simp only [Option.isSome_none, Bool.false_eq_true, false_iff] at ih
        push_neg at ih
        obtain ⟨bad, hbad, badCell, hbc, hbc2⟩ := ih
        simp only [Option.isSome_none, Bool.false_eq_true, false_iff]
        push_neg
        exact ⟨bad, List.mem_cons_of_mem row hbad, badCell, hbc, hbc2⟩
      · rw [hrest] at ih
        simp only [Option.isSome_some, true_iff] at ih
        simp only [Option.isSome_some, true_iff]
        intro r2 hr2
        rcases List.mem_cons.mp hr2 with h2 | h2
        · exact h2 ▸ hr
        · exact ih r2 h2

/-- C10: `mysql_value_to_lua` is total exactly on NULL, Int, UInt, Float
and UTF-8-decodable Bytes cells; a non-UTF-8 byte string, a Date, or a
Time makes it panic (modelled by `none`), so the row-conversion loop of
`mysql_query` returns normally iff every selected cell is of one of those
shapes. -/
theorem mysql_value_partiality :
    (∀ v : MysqlValue, (mysql_value_to_lua v).isSome = true ↔
      (match v with
       | .Bytes bytes => utf8Valid bytes = true
       | .Date _ _ _ _ _ _ _ => False
       | .Time _ _ _ _ _ _ => False
       | _ => True)) ∧
    mysql_value_to_lua (.Bytes [255]) = none ∧
    mysql_value_to_lua (.Date 2018 1 1 0 0 0 0) = none ∧
    mysql_value_to_lua (.Time 0 1 2 3 4 5) = none ∧
    (∀ rows : List (List (String × MysqlValue)),
      (mysqlConvertRows rows).isSome = true ↔
        ∀ row ∈ rows, ∀ cell ∈ row, (mysql_value_to_lua cell.2).isSome = true) := by
  refine ⟨?_, rfl, rfl, rfl, mysqlConvertRows_isSome⟩
  intro v
  cases v with
  | Bytes bytes =>
    simp only [mysql_value_to_lua]
    by_cases h : utf8Valid bytes = true
    · simp [h]
    · simp [h]
  | _ => simp [mysql_value_to_lua]

theorem mysql_value_partiality_witness :
    (mysqlConvertRows [[("v", MysqlValue.NULL), ("w", MysqlValue.Int 7)]]).isSome = true :=
  (mysql_value_partiality.2.2.2.2 [[("v", MysqlValue.NULL), ("w", MysqlValue.Int 7)]]).mpr
    (by decide)

end Badtouch
